import Mathlib

/-!
Verification of the SIR epidemic engine and centrality analyzer
(`src/sir_model.rs`, `src/main.rs`, `src/person.rs`).

The Rust code is embedded shallowly:
* `State`, `PersonState`, `Interaction` mirror the data types.
* The petgraph `Graph<PersonState, Interaction, Undirected>` is a list of
  node weights (position = node index, as petgraph assigns dense indices)
  together with a list of edges `(a, b, interaction)`.
* `f64`/`f32` values (`beta`, `gamma`, `strength`, random draws) are
  modelled as rationals; `rng.gen::<f64>()` yields values in `[0, 1)`,
  which appears as a hypothesis where a claim needs it.
* `thread_rng()` is modelled as an explicit stream of draws
  `Nat → Nat → ℚ` (round, node index): `simulate` draws one value per
  Susceptible or Infected node per round.  In the Rust code this stream
  comes from ambient thread-local state, not from a caller-supplied seed.
-/

/-- `enum State { Susceptible, Infected, Recovered }` from `sir_model.rs`. -/
inductive State where
  | Susceptible
  | Infected
  | Recovered
deriving DecidableEq, Repr

open State

/-- `struct PersonState { id: usize, state: State }` from `sir_model.rs`. -/
structure PersonState where
  id : Nat
  state : State
deriving DecidableEq, Repr

/-- `struct Interaction { frequency: u8, strength: f32 }` from `person.rs`;
`strength` is modelled as a rational. -/
structure Interaction where
  frequency : Nat
  strength : ℚ
deriving DecidableEq, Repr

/-- `Graph<PersonState, Interaction, Undirected>`: node weights listed in
index order, and undirected edges stored as `(a, b, interaction)`. -/
structure ContactGraph where
  nodes : List PersonState
  edges : List (Nat × Nat × Interaction)
deriving DecidableEq, Repr

/-- `struct SIRModel` from `sir_model.rs`. -/
structure SIRModel where
  graph : ContactGraph
  time_steps : Nat
  beta : ℚ
  gamma : ℚ

/-- `SIRModel::new`: stores the four fields verbatim; the Rust constructor
performs no validation of `beta`, `gamma` or `time_steps` (and `time_steps`
has the unsigned type `usize`, modelled as `Nat`). -/
def SIRModel.new (graph : ContactGraph) (time_steps : Nat) (beta gamma : ℚ) :
    SIRModel :=
  { graph := graph, time_steps := time_steps, beta := beta, gamma := gamma }

/-- `self.graph.neighbors(node_idx)` of petgraph on an undirected graph:
one neighbor per incident edge. -/
def neighborList (es : List (Nat × Nat × Interaction)) (n : Nat) : List Nat :=
  es.filterMap (fun e =>
    if e.1 = n then some e.2.1 else if e.2.1 = n then some e.1 else none)

/-- The round's `infected_count` for node `n`: incident edges whose other
endpoint is `Infected` in the snapshot `s` (`state_map`). -/
def infectedNeighborCount (g : ContactGraph) (s : List State) (n : Nat) : Nat :=
  (neighborList g.edges n).countP (fun m => s.getD m Susceptible == Infected)

/-- The per-node transition of one round of `SIRModel::simulate`, reading the
snapshot values only: a Susceptible node with `k` infected neighbors becomes
Infected when its draw is below `1 - (1-beta)^k`; an Infected node becomes
Recovered when its draw is below `gamma`; Recovered never changes. -/
def stepNode (beta gamma : ℚ) (k : Nat) (draw : ℚ) : State → State
  | Susceptible => if draw < 1 - (1 - beta) ^ k then Infected else Susceptible
  | Infected => if draw < gamma then Recovered else Infected
  | Recovered => Recovered

/-- One round of `SIRModel::simulate`: `new_state_map` is computed entry by
entry from the cloned snapshot `s` (`state_map`), node `n` using draw `dr n`. -/
def stepStates (g : ContactGraph) (beta gamma : ℚ) (dr : Nat → ℚ)
    (s : List State) : List State :=
  (List.range s.length).map
    (fun n => stepNode beta gamma (infectedNeighborCount g s n) (dr n)
      (s.getD n Susceptible))

/-- The state vector after `t` rounds of the `for _ in 0..self.time_steps`
loop, starting from snapshot `s`, round `r` consuming draws `d r`. -/
def statesAfter (g : ContactGraph) (beta gamma : ℚ) (d : Nat → Nat → ℚ)
    (s : List State) : Nat → List State
  | 0 => s
  | t + 1 => stepStates g beta gamma (d t) (statesAfter g beta gamma d s t)

/-- Initial `state_map`: the graph's node states keyed by node index. -/
def initStates (g : ContactGraph) : List State := g.nodes.map (·.state)

/-- The final write-back loop of `simulate`: each node keeps its `id` and
receives the final snapshot's state for its index. -/
def writeBack (nodes : List PersonState) (final : List State) :
    List PersonState :=
  (List.range nodes.length).map (fun n =>
    PersonState.mk (nodes.getD n ⟨0, Susceptible⟩).id
      (final.getD n (nodes.getD n ⟨0, Susceptible⟩).state))

/-- `SIRModel::simulate`, parameterized by the stream of random draws that
the Rust code obtains from `thread_rng()`. -/
def SIRModel.simulate (m : SIRModel) (d : Nat → Nat → ℚ) : SIRModel :=
  let final := statesAfter m.graph m.beta m.gamma d (initStates m.graph)
    m.time_steps
  SIRModel.mk (ContactGraph.mk (writeBack m.graph.nodes final) m.graph.edges)
    m.time_steps m.beta m.gamma

/- ## Helper lemmas about the stepping machinery -/

theorem stepStates_length (g : ContactGraph) (beta gamma : ℚ) (dr : Nat → ℚ)
    (s : List State) : (stepStates g beta gamma dr s).length = s.length := by
  simp [stepStates]

theorem statesAfter_length (g : ContactGraph) (beta gamma : ℚ)
    (d : Nat → Nat → ℚ) (s : List State) (t : Nat) :
    (statesAfter g beta gamma d s t).length = s.length := by
  induction t with
  | zero => rfl
  | succ t ih => simp [statesAfter, stepStates_length, ih]

theorem stepStates_getD (g : ContactGraph) (beta gamma : ℚ) (dr : Nat → ℚ)
    (s : List State) (n : Nat) (h : n < s.length) :
    (stepStates g beta gamma dr s).getD n Susceptible =
      stepNode beta gamma (infectedNeighborCount g s n) (dr n)
        (s.getD n Susceptible) := by
  have hlen : n < (stepStates g beta gamma dr s).length := by
    rwa [stepStates_length]
  rw [List.getD_eq_getElem _ _ hlen]
  simp [stepStates]

theorem getD_eq_default_of_le {l : List State} {n : Nat}
    (h : l.length ≤ n) : l.getD n Susceptible = Susceptible :=
  List.getD_eq_default _ _ h

theorem simulate_states_eq (m : SIRModel) (d : Nat → Nat → ℚ) :
    ((m.simulate d).graph.nodes).map (·.state) =
      statesAfter m.graph m.beta m.gamma d (initStates m.graph)
        m.time_steps := by
  have hlen : (statesAfter m.graph m.beta m.gamma d (initStates m.graph)
      m.time_steps).length = m.graph.nodes.length := by
    rw [statesAfter_length]; simp [initStates]
  apply List.ext_getElem
  · simp [SIRModel.simulate, writeBack, hlen]
  · intro i h1 h2
    simp only [SIRModel.simulate, writeBack] at h1 ⊢
    simp only [List.length_map, List.length_range] at h1
    simp [List.getElem_map, List.getElem_range,
      List.getD_eq_getElem _ _ (hlen ▸ h1), List.getElem?_eq_getElem h2]

theorem stepStates_transOK (g : ContactGraph) (beta gamma : ℚ) (dr : Nat → ℚ)
    (s : List State) (n : Nat) :
    s.getD n Susceptible = (stepStates g beta gamma dr s).getD n Susceptible
    ∨ (s.getD n Susceptible = Susceptible
        ∧ (stepStates g beta gamma dr s).getD n Susceptible = Infected)
    ∨ (s.getD n Susceptible = Infected
        ∧ (stepStates g beta gamma dr s).getD n Susceptible = Recovered) := by
  by_cases h : n < s.length
  · rw [stepStates_getD g beta gamma dr s n h]
    cases hs : s.getD n Susceptible with
    | Susceptible =>
      by_cases hdr : dr n < 1 - (1 - beta) ^ infectedNeighborCount g s n
      · exact Or.inr (Or.inl ⟨rfl, by simp [stepNode, hdr]⟩)
      · exact Or.inl (by simp [stepNode, hdr])
    | Infected =>
      by_cases hdr : dr n < gamma
      · exact Or.inr (Or.inr ⟨rfl, by simp [stepNode, hdr]⟩)
      · exact Or.inl (by simp [stepNode, hdr])
    | Recovered => exact Or.inl (by simp [stepNode])
  · push_neg at h
    rw [getD_eq_default_of_le h, getD_eq_default_of_le (by rwa [stepStates_length])]
    exact Or.inl rfl

/- ## Example inputs (the unit-test graph of `sir_model.rs`) -/

/-- The two-node graph built by `setup_test_graph` in the tests of
`sir_model.rs`: node 0 (`id` 1) Susceptible, node 1 (`id` 2) Infected,
one edge of frequency 5 and strength 0.5. -/
def exGraph : ContactGraph :=
  ContactGraph.mk [PersonState.mk 1 Susceptible, PersonState.mk 2 Infected]
    [(0, 1, Interaction.mk 5 (1/2))]

/-- A two-node graph with no edges. -/
def exGraph2 : ContactGraph :=
  ContactGraph.mk [PersonState.mk 0 Susceptible, PersonState.mk 1 Susceptible]
    []

/- ## Claims about the simulation loop -/

/-- C1: `simulate()` executes exactly `time_steps` rounds (the final node
states are the `time_steps`-fold iterate of the round function on the
initial snapshot); within a round, every node's next state is a function of
the pre-round snapshot `s` and the node's own draw alone (never of another
node's already-updated state); and a Susceptible node with `k` Infected
neighbors in the snapshot becomes Infected exactly when its draw falls
below `1 - (1-beta)^k`. -/
theorem simulate_synchronous_rule (m : SIRModel) (d : Nat → Nat → ℚ) :
    ((m.simulate d).graph.nodes).map (·.state) =
      statesAfter m.graph m.beta m.gamma d (initStates m.graph) m.time_steps
    ∧ (∀ t s n, n < s.length →
        (stepStates m.graph m.beta m.gamma (d t) s).getD n Susceptible =
          stepNode m.beta m.gamma (infectedNeighborCount m.graph s n) (d t n)
            (s.getD n Susceptible))
    ∧ (∀ t s n, n < s.length → s.getD n Susceptible = Susceptible →
        (stepStates m.graph m.beta m.gamma (d t) s).getD n Susceptible =
          (if d t n < 1 - (1 - m.beta) ^ infectedNeighborCount m.graph s n
            then Infected else Susceptible)) := by
  refine ⟨simulate_states_eq m d, fun t s n h => stepStates_getD _ _ _ _ _ _ h,
    fun t s n h hs => ?_⟩
  rw [stepStates_getD _ _ _ _ _ _ h, hs]
  rfl

theorem simulate_synchronous_rule_witness :
    0 < ([Susceptible, Infected] : List State).length
    ∧ ([Susceptible, Infected] : List State).getD 0 Susceptible = Susceptible
    ∧ (stepStates exGraph (3/10) (1/10) (fun _ => (0:ℚ))
        [Susceptible, Infected]).getD 0 Susceptible = Infected := by
  refine ⟨by decide, rfl, ?_⟩
  have h := (simulate_synchronous_rule (SIRModel.new exGraph 1 (3/10) (1/10))
    (fun _ _ => (0:ℚ))).2.2 0 [Susceptible, Infected] 0 (by decide) rfl
  simp only [SIRModel.new] at h
  have hk : infectedNeighborCount exGraph [Susceptible, Infected] 0 = 1 := by
    decide
  rw [h]
  simp only [hk]
  norm_num

/-- C2: during `simulate()` no node ever steps backward: between any round
and the next, a node either keeps its state, moves Susceptible → Infected,
or moves Infected → Recovered; in particular Recovered is absorbing, and
this holds for every graph, every `beta`, `gamma` and every round. -/
theorem transition_monotone (m : SIRModel) (d : Nat → Nat → ℚ) (t n : Nat) :
    (statesAfter m.graph m.beta m.gamma d (initStates m.graph) t).getD n
        Susceptible =
      (statesAfter m.graph m.beta m.gamma d (initStates m.graph) (t + 1)).getD
        n Susceptible
    ∨ ((statesAfter m.graph m.beta m.gamma d (initStates m.graph) t).getD n
          Susceptible = Susceptible
        ∧ (statesAfter m.graph m.beta m.gamma d (initStates m.graph)
            (t + 1)).getD n Susceptible = Infected)
    ∨ ((statesAfter m.graph m.beta m.gamma d (initStates m.graph) t).getD n
          Susceptible = Infected
        ∧ (statesAfter m.graph m.beta m.gamma d (initStates m.graph)
            (t + 1)).getD n Susceptible = Recovered) :=
  stepStates_transOK m.graph m.beta m.gamma (d t)
    (statesAfter m.graph m.beta m.gamma d (initStates m.graph) t) n

/-- C3: with `gamma = 1` and random draws in `[0, 1)` (the range of
`rng.gen::<f64>()`), every node Infected in the round's snapshot is
Recovered in the state produced by that same round. -/
theorem full_recovery (m : SIRModel) (d : Nat → Nat → ℚ)
    (hd : ∀ r k, d r k < 1) (hg : m.gamma = 1) (t n : Nat)
    (hInf : (statesAfter m.graph m.beta m.gamma d (initStates m.graph) t).getD
      n Susceptible = Infected) :
    (statesAfter m.graph m.beta m.gamma d (initStates m.graph) (t + 1)).getD n
      Susceptible = Recovered := by
  set s := statesAfter m.graph m.beta m.gamma d (initStates m.graph) t with hs
  have hlt : n < s.length := by
    by_contra h
    push_neg at h
    rw [getD_eq_default_of_le h] at hInf
    exact State.noConfusion hInf
  show (stepStates m.graph m.beta m.gamma (d t) s).getD n Susceptible = Recovered
  rw [stepStates_getD _ _ _ _ _ _ hlt, hInf]
  simp [stepNode, hg, hd t n]

theorem full_recovery_witness :
    (∀ _r _k : Nat, ((1:ℚ)/2) < 1)
    ∧ (statesAfter exGraph (3/10) 1 (fun _ _ => (1:ℚ)/2) (initStates exGraph)
        1).getD 1 Susceptible = Recovered := by
  refine ⟨fun _ _ => by norm_num, ?_⟩
  exact full_recovery (SIRModel.new exGraph 1 (3/10) 1) (fun _ _ => (1:ℚ)/2)
    (fun _ _ => by norm_num) rfl 0 1 rfl

/-- C4: with `beta = 0` and nonnegative random draws (the range of
`rng.gen::<f64>()`), a node that is Susceptible after `t` rounds is still
Susceptible after every later round: no Susceptible node ever becomes
Infected, for any graph, draw sequence and number of rounds. -/
theorem zero_transmission (m : SIRModel) (d : Nat → Nat → ℚ)
    (hd : ∀ r k, 0 ≤ d r k) (hb : m.beta = 0) (t n : Nat)
    (hs : (statesAfter m.graph m.beta m.gamma d (initStates m.graph) t).getD n
      Susceptible = Susceptible) :
    ∀ u, t ≤ u →
      (statesAfter m.graph m.beta m.gamma d (initStates m.graph) u).getD n
        Susceptible = Susceptible := by
  intro u hu
  induction u with
  | zero => rwa [Nat.le_zero.mp hu] at hs
  | succ u ih =>
    rcases Nat.lt_or_ge t (u + 1) with hlt | hge
    · have hsu := ih (Nat.lt_succ_iff.mp hlt)
      have hstep : statesAfter m.graph m.beta m.gamma d (initStates m.graph)
          (u + 1) = stepStates m.graph m.beta m.gamma (d u)
            (statesAfter m.graph m.beta m.gamma d (initStates m.graph) u) :=
        rfl
      by_cases h : n <
          (statesAfter m.graph m.beta m.gamma d (initStates m.graph) u).length
      · rw [hstep, stepStates_getD _ _ _ _ _ _ h, hsu]
        simp [stepNode, hb, not_lt.mpr (hd u n)]
      · push_neg at h
        refine getD_eq_default_of_le ?_
        rw [statesAfter_length]
        rwa [statesAfter_length] at h
    · rwa [Nat.le_antisymm hu hge] at hs

theorem zero_transmission_witness :
    (∀ _r _k : Nat, (0:ℚ) ≤ 0) ∧ (0:Nat) ≤ 2
    ∧ (statesAfter exGraph 0 (1/10) (fun _ _ => (0:ℚ)) (initStates exGraph)
        2).getD 0 Susceptible = Susceptible := by
  refine ⟨fun r k => le_refl 0, by norm_num, ?_⟩
  exact zero_transmission (SIRModel.new exGraph 2 0 (1/10))
    (fun _ _ => (0:ℚ)) (fun r k => le_refl 0) rfl 0 0 rfl 2 (by norm_num)

/-- C9: `simulate()` never mutates the graph structure: the edge list (and
with it every Interaction weight), the node count and every node's `id` are
unchanged, and the node `state` fields end up holding exactly the final
snapshot's states. -/
theorem simulate_frame (m : SIRModel) (d : Nat → Nat → ℚ) :
    (m.simulate d).graph.edges = m.graph.edges
    ∧ (m.simulate d).graph.nodes.length = m.graph.nodes.length
    ∧ (m.simulate d).graph.nodes.map (·.id) = m.graph.nodes.map (·.id)
    ∧ (m.simulate d).graph.nodes.map (·.state) =
        statesAfter m.graph m.beta m.gamma d (initStates m.graph)
          m.time_steps := by
  refine ⟨rfl, by simp [SIRModel.simulate, writeBack], ?_,
    simulate_states_eq m d⟩
  apply List.ext_getElem
  · simp [SIRModel.simulate, writeBack]
  · intro i h1 h2
    simp only [List.length_map] at h2
    simp [SIRModel.simulate, writeBack, List.getElem_map, List.getElem_range,
      List.getD_eq_getElem _ _ h2, List.getElem?_eq_getElem h2]

/-- C7 counterexample: the claim says out-of-range `beta` or `gamma` cause
an error at construction time; but `SIRModel::new` is a total constructor
with no failure outcome, and at `beta = 2`, `gamma = 3/2` it succeeds and
stores the invalid values unchanged. -/
theorem new_accepts_invalid_beta :
    (SIRModel.new exGraph 10 2 (3/2)).beta = 2
    ∧ (SIRModel.new exGraph 10 2 (3/2)).gamma = 3/2 :=
  ⟨rfl, rfl⟩

/-- C7 amended: `SIRModel::new` performs no parameter validation: for every
`beta` and `gamma` (in particular outside `[0,1]`) it succeeds and stores
all four fields verbatim; `time_steps` has the unsigned type `usize`
(`Nat`), so a negative value is unrepresentable rather than rejected. -/
theorem new_stores_fields_unvalidated (g : ContactGraph) (t : Nat)
    (b c : ℚ) :
    (SIRModel.new g t b c).graph = g ∧ (SIRModel.new g t b c).time_steps = t
    ∧ (SIRModel.new g t b c).beta = b ∧ (SIRModel.new g t b c).gamma = c :=
  ⟨rfl, rfl, rfl, rfl⟩

/-- C8: `simulate()` reads its randomness from `thread_rng()`, ambient
process-wide state: the outcome depends on that uncontrolled stream.  On
the unit-test graph, two runs that are identical except for the ambient
stream produce different final states, so reproducibility would require
the stream to be injectable — which the Rust signature
(`fn simulate(&mut self)`, no RNG parameter) does not allow. -/
theorem simulate_thread_rng_dependence :
    ((SIRModel.new exGraph 1 (3/10) (1/10)).simulate
        (fun _ _ => (0:ℚ))).graph.nodes ≠
      ((SIRModel.new exGraph 1 (3/10) (1/10)).simulate
        (fun _ _ => (1:ℚ)/2)).graph.nodes := by
  intro h
  have h0 := congrArg (fun l => (List.map (·.state) l).getD 0 Susceptible) h
  have e1 : ((SIRModel.new exGraph 1 (3/10) (1/10)).simulate
      (fun _ _ => (0:ℚ))).graph.nodes.map (·.state) =
      statesAfter exGraph (3/10) (1/10) (fun _ _ => (0:ℚ))
        (initStates exGraph) 1 :=
    simulate_states_eq _ _
  have e2 : ((SIRModel.new exGraph 1 (3/10) (1/10)).simulate
      (fun _ _ => (1:ℚ)/2)).graph.nodes.map (·.state) =
      statesAfter exGraph (3/10) (1/10) (fun _ _ => (1:ℚ)/2)
        (initStates exGraph) 1 :=
    simulate_states_eq _ _
  simp only [e1, e2] at h0
  have v1 : (statesAfter exGraph (3/10) (1/10) (fun _ _ => (0:ℚ))
      (initStates exGraph) 1).getD 0 Susceptible = Infected := by
    have h := stepStates_getD exGraph (3/10) (1/10) (fun _ => (0:ℚ))
      (initStates exGraph) 0 (by decide)
    have hk : infectedNeighborCount exGraph (initStates exGraph) 0 = 1 := by
      decide
    rw [show statesAfter exGraph (3/10) (1/10) (fun _ _ => (0:ℚ))
      (initStates exGraph) 1 = stepStates exGraph (3/10) (1/10)
        (fun _ => (0:ℚ)) (initStates exGraph) from rfl, h]
    simp only [hk]
    norm_num [stepNode, initStates, exGraph]
  have v2 : (statesAfter exGraph (3/10) (1/10) (fun _ _ => (1:ℚ)/2)
      (initStates exGraph) 1).getD 0 Susceptible = Susceptible := by
    have h := stepStates_getD exGraph (3/10) (1/10) (fun _ => (1:ℚ)/2)
      (initStates exGraph) 0 (by decide)
    have hk : infectedNeighborCount exGraph (initStates exGraph) 0 = 1 := by
      decide
    rw [show statesAfter exGraph (3/10) (1/10) (fun _ _ => (1:ℚ)/2)
      (initStates exGraph) 1 = stepStates exGraph (3/10) (1/10)
        (fun _ => (1:ℚ)/2) (initStates exGraph) from rfl, h]
    simp only [hk]
    norm_num [stepNode, initStates, exGraph]
  rw [v1, v2] at h0
  exact State.noConfusion h0

/- ## Edge insertion (the generator loop of `main.rs`) -/

/-- `graph.find_edge(a, b).is_some()` on an undirected petgraph graph:
whether some stored edge joins `a` and `b`, in either orientation. -/
def hasEdge (g : ContactGraph) (a b : Nat) : Bool :=
  g.edges.any (fun e => (e.1 == a && e.2.1 == b) || (e.1 == b && e.2.1 == a))

/-- The guarded edge insertion of the generator loop in `main.rs`:
`if idx != target_idx && graph.find_edge(idx, target_idx).is_none()` then
`graph.add_edge(...)` and `connections += 1`.  Returns the new graph and
whether an edge was inserted. -/
def guardedAddEdge (g : ContactGraph) (a b : Nat) (i : Interaction) :
    ContactGraph × Bool :=
  if a ≠ b ∧ hasEdge g a b = false then
    (ContactGraph.mk g.nodes (g.edges ++ [(a, b, i)]), true)
  else (g, false)

/-- C6: adding an edge between `a` and `b` is a no-op whenever `a = b` or
an edge between them already exists; in all other cases it appends exactly
one edge, touches nothing else, and the new edge is visible in both
directions (undirected). -/
theorem addEdge_rejects_selfloop_and_duplicate (g : ContactGraph)
    (a b : Nat) (i : Interaction) :
    ((a = b ∨ hasEdge g a b = true) → guardedAddEdge g a b i = (g, false))
    ∧ (a ≠ b → hasEdge g a b = false →
        (guardedAddEdge g a b i).1.edges = g.edges ++ [(a, b, i)]
        ∧ (guardedAddEdge g a b i).1.nodes = g.nodes
        ∧ (guardedAddEdge g a b i).2 = true
        ∧ hasEdge (guardedAddEdge g a b i).1 a b = true
        ∧ hasEdge (guardedAddEdge g a b i).1 b a = true) := by
  constructor
  · intro h
    rcases h with h | h
    · simp [guardedAddEdge, h]
    · simp [guardedAddEdge, h]
  · intro hne hdup
    have hg : guardedAddEdge g a b i =
        (ContactGraph.mk g.nodes (g.edges ++ [(a, b, i)]), true) := by
      simp [guardedAddEdge, hne, hdup]
    refine ⟨by rw [hg], by rw [hg], by rw [hg], ?_, ?_⟩
    · rw [hg]
      simp [hasEdge]
    · rw [hg]
      simp [hasEdge]

theorem addEdge_witness :
    ((0:Nat) = 0 ∨ hasEdge exGraph 0 0 = true)
    ∧ (0:Nat) ≠ 1 ∧ hasEdge exGraph2 0 1 = false
    ∧ guardedAddEdge exGraph 0 0 (Interaction.mk 1 (1/2)) = (exGraph, false)
    ∧ (guardedAddEdge exGraph2 0 1 (Interaction.mk 1 (1/2))).1.edges =
        exGraph2.edges ++ [(0, 1, Interaction.mk 1 (1/2))] := by
  refine ⟨Or.inl rfl, by decide, by decide, ?_, ?_⟩
  · exact (addEdge_rejects_selfloop_and_duplicate exGraph 0 0
      (Interaction.mk 1 (1/2))).1 (Or.inl rfl)
  · exact ((addEdge_rejects_selfloop_and_duplicate exGraph2 0 1
      (Interaction.mk 1 (1/2))).2 (by decide) (by decide)).1

/- ## Centrality (`calculate_betweenness_centrality` of `sir_model.rs`) -/

/-- The Dijkstra edge cost closure `|e| (e.weight().strength * 100.0) as u32`:
scale `strength` by 100 and truncate to an unsigned integer (the `as u32`
cast truncates toward zero and clamps negatives to 0). -/
def edgeCost (i : Interaction) : Nat := (i.strength * 100).floor.toNat

/-- The node indices of the graph, as iterated by
`self.graph.node_indices()`. -/
def nodeIndices (g : ContactGraph) : List Nat := List.range g.nodes.length

/-- Whether `a` and `b` are joined by some edge. -/
def adjacentB (g : ContactGraph) (a b : Nat) : Bool :=
  g.edges.any (fun e => (e.1 == a && e.2.1 == b) || (e.1 == b && e.2.1 == a))

/-- One expansion round of the reachable set: add every node of the graph
adjacent to the current set, removing duplicates. -/
def expandReach (g : ContactGraph) (cur : List Nat) : List Nat :=
  (cur ++ (nodeIndices g).filter
    (fun b => cur.any (fun a => adjacentB g a b))).dedup

/-- The key set of `dijkstra(&self.graph, node, None, cost)`: Dijkstra with
nonnegative costs visits exactly the nodes reachable from the source
(including the source itself), whatever the costs; modelled as `n`-fold
neighbor expansion from the source. -/
def reachList (g : ContactGraph) (s : Nat) : List Nat :=
  (expandReach g)^[g.nodes.length] [s]

theorem reachList_nodup (g : ContactGraph) (s : Nat) :
    (reachList g s).Nodup := by
  unfold reachList
  cases hn : g.nodes.length with
  | zero => simp
  | succ k =>
    rw [Function.iterate_succ_apply']
    exact List.nodup_dedup _

/-- `*centrality.entry(target).or_insert(0.0) += 1.0` on an association
list: increment the entry for `k` if present, otherwise append it with
value `0.0 + 1.0`. -/
def alAdd1 : List (Nat × ℚ) → Nat → List (Nat × ℚ)
  | [], k => [(k, 1)]
  | (k', v) :: rest, k =>
    if k' = k then (k', v + 1) :: rest else (k', v) :: alAdd1 rest k

/-- Plain association-list lookup (first matching key). -/
def alFind : List (Nat × ℚ) → Nat → Option ℚ
  | [], _ => none
  | (k', v) :: rest, k => if k' = k then some v else alFind rest k

/-- The inner loop of `calculate_betweenness_centrality`: for every target
in the Dijkstra result of `s`, skip `s` itself and bump the target's
counter. -/
def accumulateSource (g : ContactGraph) (m : List (Nat × ℚ)) (s : Nat) :
    List (Nat × ℚ) :=
  (reachList g s).foldl (fun acc t => if s ≠ t then alAdd1 acc t else acc) m

/-- The unnormalized counters after the outer loop over all sources. -/
def rawCentrality (g : ContactGraph) : List (Nat × ℚ) :=
  (nodeIndices g).foldl (accumulateSource g) []

/-- `let normalization_factor = if n <= 2.0 { 1.0 } else { (n-1)*(n-2)/2 }`. -/
def normalizationFactor (g : ContactGraph) : ℚ :=
  if (g.nodes.length : ℚ) ≤ 2 then 1
  else ((g.nodes.length : ℚ) - 1) * ((g.nodes.length : ℚ) - 2) / 2

/-- `SIRModel::calculate_betweenness_centrality`, as a map from node index
to score: the counters, each divided by the normalization factor. -/
def calculate_betweenness_centrality (g : ContactGraph) : List (Nat × ℚ) :=
  (rawCentrality g).map (fun p => (p.1, p.2 / normalizationFactor g))

/-- The number of sources `s ≠ k` in `sources` from which `k` is reachable. -/
def sourceCount (g : ContactGraph) (sources : List Nat) (k : Nat) : Nat :=
  sources.countP (fun s => decide (k ∈ reachList g s ∧ s ≠ k))

theorem alFind_alAdd1 (m : List (Nat × ℚ)) (t k : Nat) :
    alFind (alAdd1 m t) k =
      if k = t then some ((alFind m k).getD 0 + 1) else alFind m k := by
  induction m with
  | nil =>
    by_cases h : k = t
    · subst h
      simp [alAdd1, alFind]
    · simp [alAdd1, alFind, h, Ne.symm h]
  | cons p rest ih =>
    obtain ⟨q, v⟩ := p
    by_cases h1 : q = t
    · have ha : alAdd1 ((q, v) :: rest) t = (q, v + 1) :: rest := by
        simp [alAdd1, h1]
      rw [ha]
      by_cases h2 : k = t
      · have hqk : q = k := by rw [h1, h2]
        simp [alFind, hqk, h2]
      · have hqk : ¬ q = k := by rw [h1]; exact Ne.symm h2
        simp [alFind, hqk, h2]
    · have ha : alAdd1 ((q, v) :: rest) t = (q, v) :: alAdd1 rest t := by
        simp [alAdd1, h1]
      rw [ha]
      by_cases h2 : q = k
      · have hkt : ¬ k = t := by
          intro hh
          exact h1 (by rw [h2, hh])
        simp [alFind, h2, hkt]
      · simp [alFind, h2, ih]

theorem alFind_foldl_reach (s : Nat) (ts : List Nat) (k : Nat) :
    ∀ m : List (Nat × ℚ), ts.Nodup →
      alFind (ts.foldl (fun acc t => if s ≠ t then alAdd1 acc t else acc) m) k
        = if k ∈ ts ∧ s ≠ k then some ((alFind m k).getD 0 + 1)
          else alFind m k := by
  induction ts with
  | nil => intro m _; simp
  | cons t rest ih =>
    intro m hnd
    have hnd' : rest.Nodup := (List.nodup_cons.mp hnd).2
    have htr : t ∉ rest := (List.nodup_cons.mp hnd).1
    simp only [List.foldl_cons]
    rw [ih _ hnd']
    by_cases hst : s = t
    · have hm : (if s ≠ t then alAdd1 m t else m) = m := by simp [hst]
      rw [hm]
      by_cases hkt : k = t
      · have hsk : ¬ s ≠ k := by rw [hst, hkt]; exact fun h => h rfl
        simp [hkt, hsk, hst]
      · simp [List.mem_cons, hkt]
    · have hm : (if s ≠ t then alAdd1 m t else m) = alAdd1 m t := by
        simp [hst]
      rw [hm, alFind_alAdd1]
      by_cases hkt : k = t
      · subst hkt
        have hkr : k ∉ rest := htr
        have hsk : s ≠ k := hst
        simp [hkr, hsk]
      · simp [List.mem_cons, hkt]

theorem alFind_foldl_sources (g : ContactGraph) (sources : List Nat)
    (k : Nat) :
    ∀ m : List (Nat × ℚ),
      alFind (sources.foldl (accumulateSource g) m) k =
        if sourceCount g sources k = 0 then alFind m k
        else some ((alFind m k).getD 0 + sourceCount g sources k) := by
  induction sources with
  | nil => intro m; simp [sourceCount]
  | cons s rest ih =>
    intro m
    simp only [List.foldl_cons]
    rw [ih]
    have hacc : alFind (accumulateSource g m s) k =
        if k ∈ reachList g s ∧ s ≠ k then some ((alFind m k).getD 0 + 1)
        else alFind m k :=
      alFind_foldl_reach s (reachList g s) k m (reachList_nodup g s)
    have hcount : sourceCount g (s :: rest) k =
        sourceCount g rest k
          + (if k ∈ reachList g s ∧ s ≠ k then 1 else 0) := by
      simp [sourceCount, List.countP_cons]
    by_cases hc : k ∈ reachList g s ∧ s ≠ k
    · have e1 : alFind (accumulateSource g m s) k =
          some ((alFind m k).getD 0 + 1) := by rw [hacc, if_pos hc]
      have e2 : sourceCount g (s :: rest) k = sourceCount g rest k + 1 := by
        rw [hcount, if_pos hc]
      rw [e1, e2, if_neg (Nat.succ_ne_zero (sourceCount g rest k))]
      by_cases hr : sourceCount g rest k = 0
      · rw [if_pos hr, hr]
        norm_num
      · rw [if_neg hr, Option.getD_some]
        congr 1
        push_cast
        ring
    · have e1 : alFind (accumulateSource g m s) k = alFind m k := by
        rw [hacc, if_neg hc]
      have e2 : sourceCount g (s :: rest) k = sourceCount g rest k := by
        rw [hcount, if_neg hc, Nat.add_zero]
      rw [e1, e2]

theorem alFind_map_div (m : List (Nat × ℚ)) (q : ℚ) (k : Nat) :
    alFind (m.map (fun p => (p.1, p.2 / q))) k =
      (alFind m k).map (fun v => v / q) := by
  induction m with
  | nil => simp [alFind]
  | cons p rest ih =>
    obtain ⟨a, v⟩ := p
    by_cases h : a = k
    · simp [alFind, h]
    · simp [alFind, h, ih]

/-- C5: the score `calculate_betweenness_centrality()` assigns to node `k`
(0 when `k` has no entry) is the number of distinct sources `s ≠ k` from
which `k` is reachable in the Dijkstra search (the edge cost
`floor(strength * 100)` does not affect which nodes a Dijkstra search
reaches), divided by `(N-1)(N-2)/2` when `N > 2` and by `1` when `N ≤ 2`. -/
theorem betweenness_reachability_count (g : ContactGraph) (k : Nat) :
    (alFind (calculate_betweenness_centrality g) k).getD 0 =
      (sourceCount g (nodeIndices g) k : ℚ) / normalizationFactor g := by
  unfold calculate_betweenness_centrality rawCentrality
  rw [alFind_map_div, alFind_foldl_sources]
  by_cases hc : sourceCount g (nodeIndices g) k = 0
  · simp [hc, alFind]
  · simp [hc, alFind]

/-- C10: the map returned by `calculate_betweenness_centrality()` has an
entry for node `k` exactly when `k` is reachable from at least one source
other than itself; a node reachable from no other source is absent, not
mapped to `0.0`. -/
theorem betweenness_entry_iff_reachable (g : ContactGraph) (k : Nat) :
    alFind (calculate_betweenness_centrality g) k ≠ none ↔
      ∃ s ∈ nodeIndices g, k ∈ reachList g s ∧ s ≠ k := by
  unfold calculate_betweenness_centrality rawCentrality
  rw [alFind_map_div, alFind_foldl_sources]
  constructor
  · intro h
    by_cases hc : sourceCount g (nodeIndices g) k = 0
    · simp [hc, alFind] at h
    · have : 0 < (nodeIndices g).countP
          (fun s => decide (k ∈ reachList g s ∧ s ≠ k)) :=
        Nat.pos_of_ne_zero hc
      rw [List.countP_pos_iff] at this
      obtain ⟨s, hs, hp⟩ := this
      exact ⟨s, hs, of_decide_eq_true hp⟩
  · intro ⟨s, hs, hp⟩
    have : 0 < (nodeIndices g).countP
        (fun s => decide (k ∈ reachList g s ∧ s ≠ k)) :=
      List.countP_pos_iff.mpr ⟨s, hs, decide_eq_true hp⟩
    have hc : sourceCount g (nodeIndices g) k ≠ 0 :=
      Nat.pos_iff_ne_zero.mp this
    simp [hc, alFind]

/-- Sanity check (the betweenness example of the design notes): on the
two-node one-edge graph, both nodes score `1.0` (normalization factor 1),
node 1 entered first because source 0 is processed first. -/
theorem betweenness_exGraph :
    calculate_betweenness_centrality exGraph = [(1, 1), (0, 1)] := by
  have hraw : rawCentrality exGraph = [(1, 1), (0, 1)] := by decide
  have hnorm : normalizationFactor exGraph = 1 := by
    norm_num [normalizationFactor, exGraph]
  rw [calculate_betweenness_centrality, hraw, hnorm]
  norm_num

/-- Sanity check: on an edgeless graph no node is reachable from another
source, so the returned map is empty. -/
theorem betweenness_exGraph2 :
    calculate_betweenness_centrality exGraph2 = [] := by
  have hraw : rawCentrality exGraph2 = [] := by decide
  rw [calculate_betweenness_centrality, hraw]
  rfl
